import Mathlib

/-!
Verification of the DiaOfflineAI audio capture/buffering subsystem and
turn-taking pipeline, shallowly embedded from the Python sources
(`src/audio/audio_manager.py`, `src/wake/wake_word_detector.py`,
`src/asr/speech_recognition.py`, `src/llm/response_generator.py`,
`src/dia_assistant.py`, `src/utils/error_handler.py`).

Samples are modelled as `Int` (the int16 values of the numpy arrays);
Python exceptions are modelled with `Except`; the collaborator engines
(PyAudio streams, Porcupine, Vosk, the LLM and rule engines) are oracles
passed in as function arguments.  Each caught-and-only-logged failure is
counted in a `logged` field, and each failure routed through the
ErrorRecovery module (`error_handler.handle_error`) in a `reported`
field, so that the reporting discipline of the source is visible in the
model.
-/

namespace Dia

/-- Python slice `l[-n:]` on a list: for `n = 0` the slice `[-0:]` is
`[0:]`, i.e. the whole list; for `n > 0` it is the last `min n (length l)`
elements, i.e. `drop (length l - n)`. -/
def pySliceLast (n : Nat) (l : List Int) : List Int :=
  if n = 0 then l else l.drop (l.length - n)

/-- `AudioManager._audio_callback` (audio_manager.py:99-118): appends the
incoming frame to `self.audio_buffer`, then, when the length exceeds
`buffer_max_length`, trims to the last `buffer_max_length` samples via
`self.audio_buffer[-self.buffer_max_length:]`. -/
def audioCallback (N : Nat) (buf frame : List Int) : List Int :=
  let b := buf ++ frame
  if N < b.length then pySliceLast N b else b

/-- The buffer contents after a sequence of audio-callback invocations
starting from the initial empty buffer (audio_manager.py:50). -/
def runCallbacks (N : Nat) (frames : List (List Int)) : List Int :=
  frames.foldl (audioCallback N) []

/-- `AudioManager.listen` (audio_manager.py:140-149): returns a copy of the
current buffer; a copy of an immutable list is the list itself. -/
def listen (buf : List Int) : List Int := buf

/-- The last `n` samples of `l` (all of `l` when `l.length ≤ n`); the
specification notion of the retained suffix of the appended samples. -/
def lastN (n : Nat) (l : List Int) : List Int :=
  l.drop (l.length - n)

/-- Observable outcome of `AudioManager.record_query`: the returned sample
array, whether the continuous callback stream is running again when the
call returns, how many failures were swallowed into the module logger,
and how many were routed through ErrorRecovery
(`error_handler.handle_error`). -/
structure RecordOut where
  samples : List Int
  streamActive : Bool
  logged : Nat
  reported : Nat
deriving DecidableEq

/-- The recording loop of `record_query` (audio_manager.py:183-185):
`fuel` remaining iterations, reading chunk `i` next; the read oracle
models `record_stream.read(chunk_size)`, which either returns the chunk
samples or raises. -/
def readFrames (reads : Nat → Except Unit (List Int)) :
    Nat → Nat → Except Unit (List (List Int))
  | _, 0 => Except.ok []
  | i, fuel + 1 =>
    match reads i with
    | Except.error e => Except.error e
    | Except.ok d =>
      match readFrames reads (i + 1) fuel with
      | Except.error e => Except.error e
      | Except.ok rest => Except.ok (d :: rest)

/-- `AudioManager.record_query` (audio_manager.py:151-206).  The callback
stream is stopped, then inside a try block: a direct record stream is
opened (`openOk` models whether `p.open` succeeds),
`max_frames = int(sample_rate / chunk_size * max_duration)` chunks are
read and accumulated, the record stream is closed, the callback stream is
restarted and the joined samples are returned.  On any exception the
handler logs, restarts the callback stream and returns the empty array,
discarding the partial recording; no ErrorRecovery report is made on
either path.  A zero `chunk_size` makes the Python division raise, which
lands in the same handler.  `stop_stream`/`start_stream` themselves are
modelled as infallible. -/
def record_query (sr cs md : Nat) (openOk : Bool)
    (reads : Nat → Except Unit (List Int)) : RecordOut :=
  if cs = 0 then ⟨[], true, 1, 0⟩
  else if openOk then
    match readFrames reads 0 (sr * md / cs) with
    | Except.ok frames => ⟨frames.flatten, true, 0, 0⟩
    | Except.error _ => ⟨[], true, 1, 0⟩
  else ⟨[], true, 1, 0⟩

/-- Observable outcome of `WakeWordDetector.detect`: the boolean result,
the number of engine (`porcupine.process`) invocations, swallowed-log and
ErrorRecovery-report counts. -/
structure DetectOut where
  detected : Bool
  engineCalls : Nat
  logged : Nat
  reported : Nat
deriving DecidableEq

/-- The frame loop of `WakeWordDetector.detect` (wake_word_detector.py:85-93):
`for i in range(0, len(buffer) - frame_length + 1, frame_length)` takes
consecutive non-overlapping slices of length `frame_length`, feeds each to
the engine, and returns `True` as soon as a result is `>= 0`.  `fuel`
bounds the iteration count (at call sites it is the buffer length, which
suffices since each step drops `frame_length ≥ 1` samples); the pair
returned is the loop result (or the engine exception) together with the
number of engine invocations made. -/
def scanFramesAux (fl : Nat) (process : List Int → Except Unit Int) :
    Nat → List Int → Except Unit Bool × Nat
  | 0, _ => (Except.ok false, 0)
  | fuel + 1, rest =>
    if fl ≤ rest.length then
      match process (rest.take fl) with
      | Except.error e => (Except.error e, 1)
      | Except.ok r =>
        if 0 ≤ r then (Except.ok true, 1)
        else
          let t := scanFramesAux fl process fuel (rest.drop fl)
          (t.1, t.2 + 1)
    else (Except.ok false, 0)

/-- The whole scanning loop over a buffer.  A zero `frame_length` makes
the Python `range` raise `ValueError` (zero step) before any engine call,
modelled as an immediate exception. -/
def scanFrames (fl : Nat) (process : List Int → Except Unit Int)
    (buf : List Int) : Except Unit Bool × Nat :=
  if 0 < fl then scanFramesAux fl process buf.length buf
  else (Except.error (), 0)

/-- The consecutive full frames of length `fl` taken from the front of
`l`, the short tail discarded (`fuel` bounds the recursion as in
`scanFramesAux`); the specification notion of the partition scanned by
the detector. -/
def chunksAux (fl : Nat) : Nat → List Int → List (List Int)
  | 0, _ => []
  | fuel + 1, l =>
    if fl ≤ l.length then l.take fl :: chunksAux fl fuel (l.drop fl) else []

/-- The full non-overlapping frames of `l`, short tail discarded. -/
def chunks (fl : Nat) (l : List Int) : List (List Int) :=
  chunksAux fl l.length l

/-- `WakeWordDetector.detect` (wake_word_detector.py:69-97): the try block
runs the frame loop; on success its boolean is returned; any exception is
caught, logged (`logger.error`) and `False` is returned.  No call into
`error_handler` is made on either path. -/
def detect (fl : Nat) (process : List Int → Except Unit Int)
    (buf : List Int) : DetectOut :=
  match scanFrames fl process buf with
  | (Except.ok b, n) => ⟨b, n, 0, 0⟩
  | (Except.error _, n) => ⟨false, n, 1, 0⟩

/-- Observable outcome of one post-detection cycle of the main loop of
`dia_assistant.main`: invocation counts of `llm.generate_response`,
`tts.synthesize`, `audio.play`, `error_handler.handle_error` and
`audio.play_error_sound`, and whether the loop goes on to the next
iteration (back to wake listening). -/
structure CycleOut where
  genCalls : Nat
  synCalls : Nat
  playCalls : Nat
  errReports : Nat
  errToneCalls : Nat
  continues : Bool
deriving DecidableEq

/-- The body of the main loop of `dia_assistant.main` after a wake-word
detection (dia_assistant.py:119-151): record the query, transcribe,
generate a response, synthesize and play, each stage an oracle that may
raise.  The surrounding `except Exception` block reports the error
through `error_handler.handle_error`, then attempts
`audio.play_error_sound` once inside `try ... except: pass`, whose own
outcome (`tone`) is swallowed; the loop always continues.  (In the source
`audio.play` catches internally and cannot raise; the orchestrator
handler nevertheless covers the call, which is what the `play` error
branch models.) -/
def runCycle (rec : List Int)
    (trans : List Int → Except Unit String)
    (gen : String → Except Unit String)
    (syn : String → Except Unit (List Int))
    (play : List Int → Except Unit Unit)
    (_tone : Except Unit Unit) : CycleOut :=
  match trans rec with
  | Except.error _ => ⟨0, 0, 0, 1, 1, true⟩
  | Except.ok t =>
    match gen t with
    | Except.error _ => ⟨1, 0, 0, 1, 1, true⟩
    | Except.ok r =>
      match syn r with
      | Except.error _ => ⟨1, 1, 0, 1, 1, true⟩
      | Except.ok a =>
        match play a with
        | Except.error _ => ⟨1, 1, 1, 1, 1, true⟩
        | Except.ok _ => ⟨1, 1, 1, 0, 0, true⟩

/-- The Vosk engine operations used by `SpeechRecognizer.transcribe`:
`recognizer.Reset()`, `recognizer.AcceptWaveform(bytes)` (returning
whether a final result is available), and the JSON decoding of
`recognizer.Result()` / `recognizer.PartialResult()` down to the
extracted text; each may raise. -/
structure AsrEngine where
  reset : Except Unit Unit
  accept : List Int → Except Unit Bool
  finalText : Except Unit String
  partialText : Except Unit String

/-- The try-block body of `SpeechRecognizer.transcribe`
(speech_recognition.py:72-107) on an int16 numpy array input: reset the
recognizer, feed the samples, and extract either the final or the partial
text. -/
def transcribeBody (eng : AsrEngine) (audio : List Int) : Except Unit String :=
  match eng.reset with
  | Except.error e => Except.error e
  | Except.ok _ =>
    match eng.accept audio with
    | Except.error e => Except.error e
    | Except.ok true => eng.finalText
    | Except.ok false => eng.partialText

/-- `SpeechRecognizer.transcribe` (speech_recognition.py:62-111): the body
runs inside a try block; any exception is caught, logged, and the empty
string is returned. -/
def transcribe (eng : AsrEngine) (audio : List Int) : String :=
  match transcribeBody eng audio with
  | Except.ok t => t
  | Except.error _ => ""

/-- `ResponseGenerator.generate_response` (response_generator.py:291-311):
a falsy (empty) query short-circuits to the fixed prompt; otherwise the
LLM engine is used when configured and loaded, the rule engine otherwise.
The result pairs the returned text with the invocation counts of the LLM
and rule engines. -/
def generateResponse (engineType : String) (hasLlm : Bool)
    (llmGen ruleGen : String → String) (query : String) :
    String × Nat × Nat :=
  if query = "" then ("I didn\x27t catch that. Could you please repeat?", 0, 0)
  else if engineType = "llm" ∧ hasLlm = true then (llmGen query, 1, 0)
  else (ruleGen query, 0, 1)

/-- Modelled from the spec: `retry(operation, max_attempts)` of §4.5
(ErrorRecovery).  The implementation, `retry_on_error` in
`src/utils/exception_helpers.py`, is not among the provided sources (only
its unit tests are), so the definition follows the words of the spec:
invoke the operation; on failure retry up to `max_attempts - 1`
additional times; if some invocation succeeds return its result and stop;
if all attempts fail, re-raise the most recent error.  The operation is
an oracle giving the outcome of each successive attempt; the result pairs
the final outcome with the number of invocations made.  `i` is the index
of the next attempt and the `Nat` fuel the number of attempts still
allowed. -/
def retryAux {α : Type} (op : Nat → Except Nat α) (i : Nat) :
    Nat → Except Nat α × Nat
  | 0 => (Except.error 0, 0)
  | fuel + 1 =>
    match op i with
    | Except.ok a => (Except.ok a, 1)
    | Except.error e =>
      if fuel = 0 then (Except.error e, 1)
      else
        let t := retryAux op (i + 1) fuel
        (t.1, t.2 + 1)

/-- Modelled from the spec: see `retryAux`. -/
def retry {α : Type} (op : Nat → Except Nat α) (maxAttempts : Nat) :
    Except Nat α × Nat :=
  retryAux op 0 maxAttempts

/- ------------------------------------------------------------------ -/
/- Helper lemmas -/
/- ------------------------------------------------------------------ -/

theorem lastN_eq_reverse_take (n : Nat) (l : List Int) :
    lastN n l = (l.reverse.take n).reverse := by
  simpa [lastN, List.rtake] using List.rtake_eq_reverse_take_reverse (l := l) (n := n)

theorem take_append_take (n : Nat) (a b : List Int) :
    List.take n (a ++ List.take n b) = List.take n (a ++ b) := by
  rw [List.take_append_eq_append_take, List.take_append_eq_append_take,
    List.take_take]
  have h : min (n - a.length) n = n - a.length :=
    Nat.min_eq_left (Nat.sub_le n a.length)
  rw [h]

theorem lastN_lastN_append (n : Nat) (xs ys : List Int) :
    lastN n (lastN n xs ++ ys) = lastN n (xs ++ ys) := by
  rw [lastN_eq_reverse_take, lastN_eq_reverse_take, lastN_eq_reverse_take,
    List.reverse_append, List.reverse_reverse, List.reverse_append,
    take_append_take]

theorem lastN_length_le (n : Nat) (l : List Int) : (lastN n l).length ≤ n := by
  simp only [lastN, List.length_drop]
  omega

theorem pySliceLast_pos (n : Nat) (hn : 0 < n) (l : List Int) :
    pySliceLast n l = lastN n l := by
  simp [pySliceLast, lastN, Nat.pos_iff_ne_zero.mp hn]

theorem audioCallback_eq_lastN (N : Nat) (hN : 0 < N) (buf frame : List Int) :
    audioCallback N buf frame = lastN N (buf ++ frame) := by
  by_cases h : N < (buf ++ frame).length
  · have hp := pySliceLast_pos N hN (buf ++ frame)
    simp only [audioCallback]
    rw [if_pos h, hp]
  · have h0 : (buf ++ frame).length - N = 0 := by omega
    simp only [audioCallback]
    rw [if_neg h]
    rw [List.length_append] at h0
    simp only [lastN, List.length_append, h0, List.drop_zero]

theorem foldl_audioCallback (N : Nat) (hN : 0 < N) (frames : List (List Int))
    (buf : List Int) :
    frames.foldl (audioCallback N) (lastN N buf) =
      lastN N (buf ++ frames.flatten) := by
  induction frames generalizing buf with
  | nil => simp
  | cons f fs ih =>
    rw [List.foldl_cons, audioCallback_eq_lastN N hN, lastN_lastN_append,
      ih (buf ++ f)]
    simp [List.append_assoc]

theorem runCallbacks_eq_lastN (N : Nat) (hN : 0 < N) (frames : List (List Int)) :
    runCallbacks N frames = lastN N frames.flatten := by
  have h := foldl_audioCallback N hN frames []
  simpa [runCallbacks, lastN] using h

/- ------------------------------------------------------------------ -/
/- C1 -/
/- ------------------------------------------------------------------ -/

/-- C1, counterexample: the claim quantifies over every capacity
`buffer_max_length`, but at capacity `N = 0` the trimming slice
`audio_buffer[-0:]` is the whole array, so after appending one sample
(total `1 > 0 = N`) the snapshot returns that sample instead of the last
`0` samples. -/
theorem C1_counterexample :
    0 < (List.flatten [[(1 : Int)]]).length ∧
      listen (runCallbacks 0 [[(1 : Int)]]) ≠ lastN 0 (List.flatten [[(1 : Int)]]) := by
  constructor
  · decide
  · intro h
    simp [listen, runCallbacks, audioCallback, pySliceLast, lastN] at h

/-- C1 (amended: for every positive capacity `N`): for every sequence of
audio-callback invocations, the snapshot returned by `listen` is exactly
the last `N` appended samples in capture order — all of them when the
total is at most `N`, and exactly the `N` most recent (oldest evicted)
when the total exceeds `N`. -/
theorem C1_buffer_fifo (N : Nat) (frames : List (List Int)) (hN : 0 < N) :
    listen (runCallbacks N frames) = lastN N frames.flatten ∧
      (N < frames.flatten.length →
        (listen (runCallbacks N frames)).length = N) ∧
      (frames.flatten.length ≤ N →
        listen (runCallbacks N frames) = frames.flatten) := by
  have h := runCallbacks_eq_lastN N hN frames
  refine ⟨h, ?_, ?_⟩
  · intro hlen
    simp only [listen, h, lastN, List.length_drop]
    omega
  · intro hlen
    have h0 : frames.flatten.length - N = 0 := by omega
    simp only [listen, h, lastN, h0, List.drop_zero]

/-- C1, witness: capacity 2, appends `[1,2]` then `[3]`; the snapshot is
`[2,3]`, the last two samples. -/
theorem C1_witness :
    0 < 2 ∧
      listen (runCallbacks 2 [[(1 : Int), 2], [3]]) =
        lastN 2 (List.flatten [[(1 : Int), 2], [3]]) :=
  ⟨by decide, (C1_buffer_fifo 2 [[(1 : Int), 2], [3]] (by decide)).1⟩

/- ------------------------------------------------------------------ -/
/- C2 and C5 -/
/- ------------------------------------------------------------------ -/

theorem readFrames_ok_flatten_length (cs : Nat)
    (reads : Nat → Except Unit (List Int))
    (hc : ∀ j d, reads j = Except.ok d → d.length = cs) :
    ∀ fuel i frames, readFrames reads i fuel = Except.ok frames →
      frames.flatten.length = fuel * cs := by
  intro fuel
  induction fuel with
  | zero =>
    intro i frames h
    simp only [readFrames] at h
    cases h
    simp
  | succ n ih =>
    intro i frames h
    simp only [readFrames] at h
    cases hr : reads i with
    | error e => rw [hr] at h; cases h
    | ok d =>
      rw [hr] at h
      cases hrec : readFrames reads (i + 1) n with
      | error e => rw [hrec] at h; cases h
      | ok rest =>
        rw [hrec] at h
        cases h
        have hd : d.length = cs := hc i d hr
        have hrest : rest.flatten.length = n * cs := ih (i + 1) rest hrec
        simp only [List.flatten_cons, List.length_append, hd, hrest]
        ring

theorem record_query_streamActive (sr cs md : Nat) (openOk : Bool)
    (reads : Nat → Except Unit (List Int)) :
    (record_query sr cs md openOk reads).streamActive = true := by
  unfold record_query
  by_cases h0 : cs = 0
  · simp [h0]
  · rw [if_neg h0]
    cases openOk
    · simp
    · cases hrec : readFrames reads 0 (sr * md / cs) <;> simp [hrec]

/-- C2: for every `max_duration`, `record_query` returns at most
`sample_rate * max_duration` samples (each successful device read yields
one chunk of `chunk_size` samples, and
`max_frames = int(sample_rate / chunk_size * max_duration)` chunks are
read), and the continuous callback stream is running again when the call
returns, on the success path and on every failure path alike. -/
theorem C2_record_bounded (sr cs md : Nat) (openOk : Bool)
    (reads : Nat → Except Unit (List Int))
    (hc : ∀ j d, reads j = Except.ok d → d.length = cs) :
    (record_query sr cs md openOk reads).samples.length ≤ sr * md ∧
      (record_query sr cs md openOk reads).streamActive = true := by
  refine ⟨?_, record_query_streamActive sr cs md openOk reads⟩
  unfold record_query
  by_cases h0 : cs = 0
  · simp [h0]
  · rw [if_neg h0]
    cases openOk
    · simp
    · cases hrec : readFrames reads 0 (sr * md / cs) with
      | error e => simp [hrec]
      | ok frames =>
        have hlen := readFrames_ok_flatten_length cs reads hc _ _ _ hrec
        rw [if_pos rfl]
        simp only [hrec]
        show frames.flatten.length ≤ sr * md
        rw [hlen]
        exact Nat.div_mul_le_self _ _

/-- C2, witness: sample rate 4, chunk size 2, max duration 3; six chunks
of two zero samples are recorded (12 = 4 × 3 samples) and the stream is
active again. -/
theorem C2_witness :
    (record_query 4 2 3 true fun _ => Except.ok [0, 0]).samples.length ≤ 4 * 3 ∧
      (record_query 4 2 3 true fun _ => Except.ok [0, 0]).streamActive = true :=
  C2_record_bounded 4 2 3 true (fun _ => Except.ok [0, 0])
    (fun j d h => by injection h with h; subst h; rfl)

/-- C5, counterexample: with chunk size 1 and a device whose first read
returns sample `7` and whose second read raises, `record_query` discards
the partial recording (the claim is right there) but makes no
ErrorRecovery report — `reported = 0`, the failure is only logged —
whereas the claim requires the failure to be reported through
ErrorRecovery as a transient audio error. -/
theorem C5_counterexample :
    (fun i => if i = 0 then Except.ok [(7 : Int)] else Except.error ()) 0 =
        Except.ok [(7 : Int)] ∧
      record_query 2 1 2 true
          (fun i => if i = 0 then Except.ok [(7 : Int)] else Except.error ()) =
        ⟨[], true, 1, 0⟩ :=
  ⟨rfl, rfl⟩

/-- C5 (amended): if a device read raises mid-loop during a bounded
recording, the partial recording accumulated so far is discarded (the
empty array is returned), the callback stream is restarted, and the
failure is swallowed into the module logger (`logger.error`); it is not
routed through ErrorRecovery (`error_handler.handle_error`). -/
theorem C5_partial_discarded (sr cs md : Nat)
    (reads : Nat → Except Unit (List Int)) (hcs : cs ≠ 0)
    (herr : ∃ e, readFrames reads 0 (sr * md / cs) = Except.error e) :
    record_query sr cs md true reads = ⟨[], true, 1, 0⟩ := by
  obtain ⟨e, he⟩ := herr
  unfold record_query
  rw [if_neg hcs]
  simp [he]

/-- C5, witness: a device whose every read raises. -/
theorem C5_witness :
    record_query 2 1 2 true (fun _ => Except.error ()) = ⟨[], true, 1, 0⟩ :=
  C5_partial_discarded 2 1 2 (fun _ => Except.error ()) (by decide) ⟨(), rfl⟩

/- ------------------------------------------------------------------ -/
/- C6 and C7 -/
/- ------------------------------------------------------------------ -/

theorem scanFramesAux_pure (fl : Nat) (score : List Int → Int) :
    ∀ fuel rest, rest.length ≤ fuel → 0 < fl →
      scanFramesAux fl (fun f => Except.ok (score f)) fuel rest =
        (Except.ok ((chunksAux fl fuel rest).any fun f => decide (0 ≤ score f)),
         min ((chunksAux fl fuel rest).findIdx (fun f => decide (0 ≤ score f)) + 1)
           (chunksAux fl fuel rest).length) := by
  intro fuel
  induction fuel with
  | zero =>
    intro rest h hfl
    simp [scanFramesAux, chunksAux]
  | succ n ih =>
    intro rest h hfl
    by_cases hc : fl ≤ rest.length
    · by_cases hp : 0 ≤ score (rest.take fl)
      · simp only [scanFramesAux, chunksAux, if_pos hc]
        simp [hp, List.findIdx_cons]
      · have hlen : (rest.drop fl).length ≤ n := by
          simp only [List.length_drop]
          omega
        have ht := ih (rest.drop fl) hlen hfl
        simp only [scanFramesAux, chunksAux, if_pos hc]
        simp [hp, ht, List.findIdx_cons, Nat.succ_min_succ]
    · simp [scanFramesAux, chunksAux, hc]

theorem scanFrames_pure (fl : Nat) (score : List Int → Int) (hfl : 0 < fl)
    (buf : List Int) :
    scanFrames fl (fun f => Except.ok (score f)) buf =
      (Except.ok ((chunks fl buf).any fun f => decide (0 ≤ score f)),
       min ((chunks fl buf).findIdx (fun f => decide (0 ≤ score f)) + 1)
         (chunks fl buf).length) := by
  unfold scanFrames chunks
  rw [if_pos hfl]
  exact scanFramesAux_pure fl score buf.length buf le_rfl hfl

theorem chunks_short (fl : Nat) (buf : List Int) (h : buf.length < fl) :
    chunks fl buf = [] := by
  unfold chunks
  cases hb : buf.length with
  | zero => simp [chunksAux]
  | succ n =>
    simp only [chunksAux]
    rw [if_neg (by omega)]

/-- C6: with a non-raising engine, `detect` scans exactly the consecutive
non-overlapping full frames of the snapshot (`chunks`, the short tail
discarded): it returns true iff some full frame makes the engine report a
detection (`process` result `≥ 0`, the engine applying its configured
sensitivity internally), the number of engine calls is the position of
the first detected frame plus one (no later frame is scanned) — or the
number of full frames when none triggers — and a snapshot shorter than
one frame length yields false with no engine call. -/
theorem C6_scan (fl : Nat) (score : List Int → Int) (buf : List Int)
    (hfl : 0 < fl) :
    (detect fl (fun f => Except.ok (score f)) buf).detected =
        ((chunks fl buf).any fun f => decide (0 ≤ score f)) ∧
      (detect fl (fun f => Except.ok (score f)) buf).engineCalls =
        min ((chunks fl buf).findIdx (fun f => decide (0 ≤ score f)) + 1)
          (chunks fl buf).length ∧
      (buf.length < fl →
        detect fl (fun f => Except.ok (score f)) buf = ⟨false, 0, 0, 0⟩) := by
  have h := scanFrames_pure fl score hfl buf
  refine ⟨by simp [detect, h], by simp [detect, h], ?_⟩
  intro hlt
  rw [chunks_short fl buf hlt] at h
  simp only [List.any_nil, List.findIdx_nil, List.length_nil, Nat.zero_add,
    Nat.min_zero] at h
  simp [detect, h]

/-- C6, witness: frame length 2 over `[1,2,3,4,5,6]`; the engine triggers
on the second frame `[3,4]`, so detection is reported after exactly two
engine calls. -/
theorem C6_witness :
    0 < 2 ∧
      (detect 2 (fun f => Except.ok (if f = [(3 : Int), 4] then 0 else -1))
            [1, 2, 3, 4, 5, 6]).detected =
        ((chunks 2 [1, 2, 3, 4, 5, 6]).any fun f =>
          decide ((0 : Int) ≤ if f = [(3 : Int), 4] then 0 else -1)) :=
  ⟨by decide,
    (C6_scan 2 (fun f => if f = [(3 : Int), 4] then 0 else -1)
      [1, 2, 3, 4, 5, 6] (by decide)).1⟩

/-- C7, counterexample: frame length 1, buffer `[0]`, an engine that
raises on every frame: `detect` catches and returns false (that half of
the claim is right), but the exception is only logged (`logged = 1`) and
never reported through ErrorRecovery (`reported = 0`), whereas the claim
requires an ErrorRecovery report. -/
theorem C7_counterexample :
    (detect 1 (fun _ => Except.error ()) [0]).detected = false ∧
      (detect 1 (fun _ => Except.error ()) [0]).logged = 1 ∧
      (detect 1 (fun _ => Except.error ()) [0]).reported = 0 :=
  ⟨rfl, rfl, rfl⟩

/-- C7 (amended): if the wake-word engine raises during any frame of a
scan, `detect` catches the exception and returns false (never propagating
to the orchestrator), logging it via the module logger; it is not
reported through ErrorRecovery. -/
theorem C7_engine_error (fl : Nat) (process : List Int → Except Unit Int)
    (buf : List Int) (e : Unit) (n : Nat)
    (h : scanFrames fl process buf = (Except.error e, n)) :
    detect fl process buf = ⟨false, n, 1, 0⟩ := by
  simp [detect, h]

/-- C7, witness: frame length 1 over `[5]` with an always-raising
engine. -/
theorem C7_witness :
    detect 1 (fun _ => Except.error ()) [5] = ⟨false, 1, 1, 0⟩ :=
  C7_engine_error 1 (fun _ => Except.error ()) [5] () 1 rfl

/- ------------------------------------------------------------------ -/
/- C3 and C8 -/
/- ------------------------------------------------------------------ -/

/-- C3, counterexample: a cycle in which transcription returns the empty
string still invokes `generate_response`, `synthesize` and `play` once
each — the main loop of `dia_assistant.main` has no empty-text check —
whereas the claim requires zero invocations of each. -/
theorem C3_counterexample :
    (runCycle [] (fun _ => Except.ok "") (fun _ => Except.ok "fallback")
          (fun _ => Except.ok []) (fun _ => Except.ok ()) (Except.ok ())).genCalls = 1 ∧
      (runCycle [] (fun _ => Except.ok "") (fun _ => Except.ok "fallback")
          (fun _ => Except.ok []) (fun _ => Except.ok ()) (Except.ok ())).synCalls = 1 ∧
      (runCycle [] (fun _ => Except.ok "") (fun _ => Except.ok "fallback")
          (fun _ => Except.ok []) (fun _ => Except.ok ()) (Except.ok ())).playCalls = 1 :=
  ⟨rfl, rfl, rfl⟩

/-- C3 (amended): in every cycle where the transcription stage returns
empty text, the orchestrator does not route directly back to wake
listening: the response-generation collaborator is invoked exactly once
(on the empty text) and the cycle then continues through the remaining
stages as in any other cycle before the loop returns to wake
listening. -/
theorem C3_empty_transcription (rec : List Int)
    (trans : List Int → Except Unit String)
    (gen : String → Except Unit String)
    (syn : String → Except Unit (List Int))
    (play : List Int → Except Unit Unit)
    (tone : Except Unit Unit)
    (h : trans rec = Except.ok "") :
    (runCycle rec trans gen syn play tone).genCalls = 1 ∧
      (runCycle rec trans gen syn play tone).continues = true := by
  cases hg : gen "" with
  | error e => simp [runCycle, h, hg]
  | ok r =>
    cases hs : syn r with
    | error e => simp [runCycle, h, hg, hs]
    | ok a =>
      cases hp : play a with
      | error e => simp [runCycle, h, hg, hs, hp]
      | ok u => simp [runCycle, h, hg, hs, hp]

/-- C3, witness: empty transcription with all later stages succeeding. -/
theorem C3_witness :
    (runCycle [] (fun _ => Except.ok "") (fun _ => Except.ok "x")
          (fun _ => Except.ok []) (fun _ => Except.ok ()) (Except.ok ())).genCalls = 1 ∧
      (runCycle [] (fun _ => Except.ok "") (fun _ => Except.ok "x")
          (fun _ => Except.ok []) (fun _ => Except.ok ()) (Except.ok ())).continues = true :=
  C3_empty_transcription [] (fun _ => Except.ok "") (fun _ => Except.ok "x")
    (fun _ => Except.ok []) (fun _ => Except.ok ()) (Except.ok ()) rfl

/-- C8: if any stage from transcription through playback raises during a
cycle — transcription itself, response generation, synthesis, or the
playback call (the hypothesis is the disjunction over the four reached
failing stages) — the orchestrator reports the error through
ErrorRecovery (`error_handler.handle_error`, `errReports = 1`), attempts
`play_error_sound` exactly once (`errToneCalls = 1`), and the loop
continues back to wake listening; the outcome is the same for every
outcome of the error-tone attempt, so its own failure is swallowed. -/
theorem C8_stage_failure (rec : List Int)
    (trans : List Int → Except Unit String)
    (gen : String → Except Unit String)
    (syn : String → Except Unit (List Int))
    (play : List Int → Except Unit Unit)
    (tone tone' : Except Unit Unit)
    (h : (∃ e, trans rec = Except.error e) ∨
      (∃ t e, trans rec = Except.ok t ∧ gen t = Except.error e) ∨
      (∃ t r e, trans rec = Except.ok t ∧ gen t = Except.ok r ∧
        syn r = Except.error e) ∨
      (∃ t r a e, trans rec = Except.ok t ∧ gen t = Except.ok r ∧
        syn r = Except.ok a ∧ play a = Except.error e)) :
    (runCycle rec trans gen syn play tone).errReports = 1 ∧
      (runCycle rec trans gen syn play tone).errToneCalls = 1 ∧
      (runCycle rec trans gen syn play tone).continues = true ∧
      runCycle rec trans gen syn play tone =
        runCycle rec trans gen syn play tone' := by
  rcases h with ⟨e, he⟩ | ⟨t, e, ht, hg⟩ | ⟨t, r, e, ht, hg, hs⟩ |
    ⟨t, r, a, e, ht, hg, hs, hp⟩
  · simp [runCycle, he]
  · simp [runCycle, ht, hg]
  · simp [runCycle, ht, hg, hs]
  · simp [runCycle, ht, hg, hs, hp]

/-- C8, witness: the synthesis stage raises (the spec's end-to-end
scenario) while the error-tone attempt itself fails; the error is
reported once, the tone attempted once, the loop continues, and the
outcome equals the one with a succeeding tone. -/
theorem C8_stage_witness :
    (runCycle [] (fun _ => Except.ok "hi") (fun _ => Except.ok "resp")
          (fun _ => Except.error ()) (fun _ => Except.ok ())
          (Except.error ())).errReports = 1 ∧
      (runCycle [] (fun _ => Except.ok "hi") (fun _ => Except.ok "resp")
          (fun _ => Except.error ()) (fun _ => Except.ok ())
          (Except.error ())).errToneCalls = 1 ∧
      (runCycle [] (fun _ => Except.ok "hi") (fun _ => Except.ok "resp")
          (fun _ => Except.error ()) (fun _ => Except.ok ())
          (Except.error ())).continues = true ∧
      runCycle [] (fun _ => Except.ok "hi") (fun _ => Except.ok "resp")
          (fun _ => Except.error ()) (fun _ => Except.ok ())
          (Except.error ()) =
        runCycle [] (fun _ => Except.ok "hi") (fun _ => Except.ok "resp")
          (fun _ => Except.error ()) (fun _ => Except.ok ())
          (Except.ok ()) :=
  C8_stage_failure [] (fun _ => Except.ok "hi") (fun _ => Except.ok "resp")
    (fun _ => Except.error ()) (fun _ => Except.ok ())
    (Except.error ()) (Except.ok ())
    (Or.inr (Or.inr (Or.inl ⟨"hi", "resp", (), rfl, rfl, rfl⟩)))

/- ------------------------------------------------------------------ -/
/- C9 and C10 -/
/- ------------------------------------------------------------------ -/

/-- C9: `transcribe` never raises — it is a total function into `String`:
whenever any step of the body (reset, waveform feed, result decoding)
raises, the exception is caught and the empty string is returned, and
whenever the body succeeds its text is returned unchanged. -/
theorem C9_transcribe_total (eng : AsrEngine) (audio : List Int) :
    (∀ e, transcribeBody eng audio = Except.error e →
        transcribe eng audio = "") ∧
      ∀ t, transcribeBody eng audio = Except.ok t →
        transcribe eng audio = t := by
  constructor
  · intro e h
    simp [transcribe, h]
  · intro t h
    simp [transcribe, h]

/-- C9, witness: an engine whose waveform feed raises on any input; the
caught failure yields the empty string. -/
theorem C9_witness :
    transcribe ⟨Except.ok (), fun _ => Except.error (),
        Except.ok "a", Except.ok "b"⟩ [] = "" :=
  (C9_transcribe_total
    ⟨Except.ok (), fun _ => Except.error (), Except.ok "a", Except.ok "b"⟩
    []).1 () rfl

/-- C10: on an empty (falsy) query, `generate_response` returns the fixed
non-empty prompt and invokes neither the LLM engine nor the rule engine,
for every engine configuration. -/
theorem C10_empty_query (et : String) (hl : Bool) (lg rg : String → String) :
    generateResponse et hl lg rg "" =
        ("I didn\x27t catch that. Could you please repeat?", 0, 0) ∧
      ("I didn\x27t catch that. Could you please repeat?" : String) ≠ "" := by
  refine ⟨by simp [generateResponse], by decide⟩

/- ------------------------------------------------------------------ -/
/- C4 -/
/- ------------------------------------------------------------------ -/

theorem retryAux_count_le {α : Type} (op : Nat → Except Nat α) :
    ∀ fuel i, (retryAux op i fuel).2 ≤ fuel := by
  intro fuel
  induction fuel with
  | zero => intro i; simp [retryAux]
  | succ n ih =>
    intro i
    simp only [retryAux]
    cases op i with
    | ok a => simp
    | error e =>
      by_cases hn : n = 0
      · simp [hn]
      · simp only [if_neg hn]
        have := ih (i + 1)
        simp
        omega

theorem retryAux_all_fail {α : Type} (op : Nat → Except Nat α)
    (err : Nat → Nat) (hf : ∀ j, op j = Except.error (err j)) :
    ∀ fuel i, 0 < fuel →
      retryAux op i fuel = (Except.error (err (i + fuel - 1)), fuel) := by
  intro fuel
  induction fuel with
  | zero => intro i h; exact absurd h (Nat.lt_irrefl 0)
  | succ n ih =>
    intro i h
    simp only [retryAux, hf i]
    by_cases hn : n = 0
    · subst hn
      simp
    · rw [if_neg hn]
      have ht := ih (i + 1) (Nat.pos_of_ne_zero hn)
      have hidx : i + 1 + n - 1 = i + (n + 1) - 1 := by omega
      rw [ht]
      simp only [hidx]

theorem retryAux_first_success {α : Type} (op : Nat → Except Nat α) (a : α) :
    ∀ k i fuel, (∀ j, j < k → ∃ e, op (i + j) = Except.error e) →
      op (i + k) = Except.ok a → k < fuel →
      retryAux op i fuel = (Except.ok a, k + 1) := by
  intro k
  induction k with
  | zero =>
    intro i fuel hpre hk hlt
    cases fuel with
    | zero => exact absurd hlt (Nat.lt_irrefl 0)
    | succ n =>
      rw [Nat.add_zero] at hk
      simp [retryAux, hk]
  | succ m ih =>
    intro i fuel hpre hk hlt
    cases fuel with
    | zero => exact absurd hlt (Nat.not_lt_zero _)
    | succ n =>
      obtain ⟨e, he⟩ := hpre 0 (Nat.succ_pos m)
      rw [Nat.add_zero] at he
      simp only [retryAux, he]
      have hn : ¬n = 0 := by omega
      rw [if_neg hn]
      have hpre' : ∀ j, j < m → ∃ e, op (i + 1 + j) = Except.error e := by
        intro j hj
        have hh := hpre (j + 1) (by omega)
        have heq : i + (j + 1) = i + 1 + j := by omega
        rw [heq] at hh
        exact hh
      have hk' : op (i + 1 + m) = Except.ok a := by
        have heq : i + 1 + m = i + (m + 1) := by omega
        rw [heq]
        exact hk
      have ht := ih (i + 1) n hpre' hk' (by omega)
      rw [ht]

/-- C4 (spec-modelled): `retry(op, N)` invokes the operation at most `N`
times; when the operation fails on every invocation it is invoked exactly
`N` times and the final (most recent) error is re-raised to the caller;
when the attempt of index `k` is the first to succeed, its result is
returned after exactly `k + 1` invocations and no further invocation
occurs. -/
theorem C4_retry {α : Type} (op : Nat → Except Nat α) (err : Nat → Nat)
    (N k : Nat) (a : α) :
    (retry op N).2 ≤ N ∧
      ((∀ i, op i = Except.error (err i)) → 0 < N →
        retry op N = (Except.error (err (N - 1)), N)) ∧
      ((∀ j, j < k → ∃ e, op j = Except.error e) → op k = Except.ok a →
        k < N → retry op N = (Except.ok a, k + 1)) := by
  refine ⟨retryAux_count_le op N 0, ?_, ?_⟩
  · intro hf hN
    have h := retryAux_all_fail op err hf N 0 hN
    simpa [retry] using h
  · intro hpre hk hlt
    have h := retryAux_first_success op a k 0 N (by simpa using hpre)
      (by simpa using hk) hlt
    simpa [retry] using h

/-- C4, witness: an operation failing on every attempt with error code
equal to the attempt index, retried with `max_attempts = 3`: it is
invoked exactly 3 times and the final error (code 2) is re-raised. -/
theorem C4_witness :
    0 < 3 ∧
      retry (fun i => (Except.error i : Except Nat Nat)) 3 =
        (Except.error 2, 3) :=
  ⟨by decide,
    (C4_retry (fun i => (Except.error i : Except Nat Nat)) (fun i => i)
      3 0 0).2.1 (fun i => rfl) (by decide)⟩

end Dia
